import Mathlib

/-!
Verification development for the Sniffr/zillow scraping pipeline.

This file gives a shallow embedding, in Lean 4, of the parts of the
repository that the specification's testable properties talk about:

* `database_models.py` — `DatabaseManager.add_property` (attribution
  normalization), the property store with session/commit/rollback
  semantics, `delete_properties_by_search_term`,
  `update_scraper_config`, `create_scraper_log` / `update_scraper_log`;
* `get_listing_and_agent.py` — `retry_with_backoff`,
  `save_search_to_database`, the `main` run lifecycle;
* `scraper_logger.py` — `ScraperLogger` (execution-log lifecycle,
  `complete_success` / `complete_failure` / `cancel` / `close` /
  `__exit__`);
* `scraper_scheduler.py` — `ScraperScheduler.run_now` /
  `run_scheduled_scraper` as an atomic-event transition system.

Python dictionaries are modelled as association lists (insertion order,
unique keys, assignment replaces in place or appends); Python values
appearing in property records are modelled by the inductive `PyVal`;
floats in the retry-backoff arithmetic are modelled by `ℚ`.
-/

namespace Zillow

/-- A Python value as it appears in a scraped property/detail record:
`None`, a string, an integer, a list, or a string-keyed dict. -/
inductive PyVal where
  | none : PyVal
  | str (s : String) : PyVal
  | int (n : Int) : PyVal
  | list (xs : List PyVal) : PyVal
  | dict (kvs : List (String × PyVal)) : PyVal

/-- Lookup in a Python dict modelled as an association list
(first match; keys are unique in a real dict). -/
def dictGet {α : Type} (d : List (String × α)) (k : String) : Option α :=
  (d.find? (fun p => p.1 = k)).map (fun p => p.2)

/-- Python dict assignment `d[k] = v`: replaces the value of an existing
key in place, otherwise appends the new pair at the end. -/
def dictSet {α : Type} : List (String × α) → String → α → List (String × α)
  | [], k, v => [(k, v)]
  | p :: rest, k, v => if p.1 = k then (k, v) :: rest else p :: dictSet rest k v

/-- `p.isPrefixOf s` on character lists, used to model
`str.startswith`. -/
def startsWithStr (pre s : String) : Bool :=
  pre.data.isPrefixOf s.data

/-- ASCII model of Python `'A' <= c <= 'Z'` (the `[A-Z]` regex class). -/
def isAsciiUpper (c : Char) : Bool :=
  'A' ≤ c && c ≤ 'Z'

/-- One step of `re.sub('([A-Z]+)', r'_\1', s)`: an underscore is
inserted before each maximal run of uppercase letters.  The boolean
argument records whether the previous character was uppercase (i.e.
whether we are inside a run). -/
def snakeAux : Bool → List Char → List Char
  | _, [] => []
  | inRun, c :: rest =>
    if isAsciiUpper c then
      if inRun then c :: snakeAux true rest
      else '_' :: c :: snakeAux true rest
    else c :: snakeAux false rest

/-- `re.sub('([A-Z]+)', r'_\1', field_name).lower()` followed by the
source's strip of a single leading underscore
(`database_models.py` lines 260-264). -/
def camelToSnake (s : String) : String :=
  let t := (snakeAux false s.data).map Char.toLower
  match t with
  | '_' :: rest => ⟨rest⟩
  | t => ⟨t⟩

/-- If `pat` is a prefix of `l`, the remainder of `l` after `pat`. -/
def dropPat : List Char → List Char → Option (List Char)
  | [], l => some l
  | _ :: _, [] => Option.none
  | p :: ps, c :: cs => if p = c then dropPat ps cs else Option.none

/-- Fuel-indexed body of Python `str.replace` (non-overlapping,
left-to-right); one unit of fuel is spent per examined position, and
`fuel = length of the scanned list` always suffices. -/
def replaceAllAux (pat : List Char) : Nat → List Char → List Char
  | 0, l => l
  | _ + 1, [] => []
  | fuel + 1, c :: cs =>
    match dropPat pat (c :: cs) with
    | some rest => replaceAllAux pat fuel rest
    | Option.none => c :: replaceAllAux pat fuel cs

/-- `key.replace('Attribution_', '')` from `add_property`
(`database_models.py` line 220): removes every occurrence of the
pattern, not only a leading one. -/
def stripAttributionTag (key : String) : String :=
  ⟨replaceAllAux "Attribution_".data key.data.length key.data⟩

/-- The `field_mapping` table of `add_property`
(`database_models.py` lines 224-254). -/
def fieldMapping : List (String × String) :=
  [("agentEmail", "agent_email"),
   ("agentLicenseNumber", "agent_license_number"),
   ("agentName", "agent_name"),
   ("agentPhoneNumber", "agent_phone_number"),
   ("attributionTitle", "title"),
   ("brokerName", "broker_name"),
   ("brokerPhoneNumber", "broker_phone_number"),
   ("buyerAgentMemberStateLicense", "buyer_agent_member_state_license"),
   ("buyerAgentName", "buyer_agent_name"),
   ("buyerBrokerageName", "buyer_brokerage_name"),
   ("coAgentLicenseNumber", "co_agent_license_number"),
   ("coAgentName", "co_agent_name"),
   ("coAgentNumber", "co_agent_number"),
   ("lastChecked", "last_checked"),
   ("lastUpdated", "last_updated"),
   ("listingOffices", "listing_offices"),
   ("listingAgents", "listing_agents"),
   ("mlsDisclaimer", "mls_disclaimer"),
   ("mlsId", "mls_id"),
   ("mlsName", "mls_name"),
   ("providerLogo", "provider_logo"),
   ("listingAgreement", "listing_agreement"),
   ("listingAttributionContact", "listing_attribution_contact"),
   ("listingAgentAttributionContact", "listing_agent_attribution_contact"),
   ("infoString3", "info_string3"),
   ("infoString5", "info_string5"),
   ("infoString10", "info_string10"),
   ("infoString16", "info_string16"),
   ("trueStatus", "true_status")]

/-- `db_field_name` as computed by `add_property`: the mapped name when
the field is in `field_mapping`, otherwise the algorithmic
camelCase-to-snake_case conversion; in both cases prefixed with
`attribution_`. -/
def dbFieldName (fieldName : String) : String :=
  match dictGet fieldMapping fieldName with
  | some mapped => "attribution_" ++ mapped
  | Option.none => "attribution_" ++ camelToSnake fieldName

/-- The `attribution_*` attributes of the `Property` model
(`database_models.py` lines 35-66); these are exactly the names for
which `hasattr(Property, db_field_name)` can succeed given that
`db_field_name` always starts with `attribution_`.  Includes the
catch-all column `attribution_extra`. -/
def attributionAttrs : List String :=
  ["attribution_agent_email",
   "attribution_agent_license_number",
   "attribution_agent_name",
   "attribution_agent_phone_number",
   "attribution_title",
   "attribution_broker_name",
   "attribution_broker_phone_number",
   "attribution_buyer_agent_member_state_license",
   "attribution_buyer_agent_name",
   "attribution_buyer_brokerage_name",
   "attribution_co_agent_license_number",
   "attribution_co_agent_name",
   "attribution_co_agent_number",
   "attribution_last_checked",
   "attribution_last_updated",
   "attribution_listing_offices",
   "attribution_listing_agents",
   "attribution_mls_disclaimer",
   "attribution_mls_id",
   "attribution_mls_name",
   "attribution_provider_logo",
   "attribution_listing_agreement",
   "attribution_listing_attribution_contact",
   "attribution_listing_agent_attribution_contact",
   "attribution_info_string3",
   "attribution_info_string5",
   "attribution_info_string10",
   "attribution_info_string16",
   "attribution_true_status",
   "attribution_extra"]

mutual

/-- A crude JSON printer modelling `json.dumps` for list and dict values
(only its use as an opaque text serialization matters to the claims). -/
def pyJson : PyVal → String
  | PyVal.none => "null"
  | PyVal.str s => "\"" ++ s ++ "\""
  | PyVal.int n => toString n
  | PyVal.list xs => "[" ++ String.intercalate ", " (pyJsonList xs) ++ "]"
  | PyVal.dict kvs =>
    "\x7b" ++ String.intercalate ", " (pyJsonDict kvs) ++ "\x7d"

/-- JSON rendering of the elements of a list value. -/
def pyJsonList : List PyVal → List String
  | [] => []
  | v :: vs => pyJson v :: pyJsonList vs

/-- JSON rendering of the entries of a dict value. -/
def pyJsonDict : List (String × PyVal) → List String
  | [] => []
  | (k, v) :: kvs => ("\"" ++ k ++ "\": " ++ pyJson v) :: pyJsonDict kvs

end

/-- Python `str(value)` for the scalar values `add_property` passes to
it (it is never applied to lists/dicts, which go through `json.dumps`,
nor to `None`). -/
def pyStr : PyVal → String
  | PyVal.none => "None"
  | PyVal.str s => s
  | PyVal.int n => toString n
  | v => pyJson v

/-- The stored column text for an attribution value
(`database_models.py` lines 267-272): lists/dicts are serialized with
`json.dumps`, `None` stays `None`, anything else goes through `str`. -/
def serializeAttr : PyVal → Option String
  | PyVal.list xs => some (pyJson (PyVal.list xs))
  | PyVal.dict kvs => some (pyJson (PyVal.dict kvs))
  | PyVal.none => Option.none
  | v => some (pyStr v)

/-- Accumulator of `add_property`'s normalization loop: the
`attribution_fields` dict (column name ↦ stored text) and the
`extra_attribution` dict. -/
structure AttrAcc where
  fields : List (String × Option String)
  extra : List (String × PyVal)

/-- One iteration of the loop `for key, value in property_data.items()`
of `add_property` (`database_models.py` lines 217-275). -/
def attrStep (acc : AttrAcc) (kv : String × PyVal) : AttrAcc :=
  if startsWithStr "Attribution_" kv.1 then
    let fieldName := stripAttributionTag kv.1
    let dbName := dbFieldName fieldName
    if attributionAttrs.contains dbName then
      { acc with fields := dictSet acc.fields dbName (serializeAttr kv.2) }
    else
      { acc with extra := dictSet acc.extra fieldName kv.2 }
  else acc

/-- The whole normalization loop of `add_property`. -/
def buildAttribution (propertyData : List (String × PyVal)) : AttrAcc :=
  propertyData.foldl attrStep ⟨[], []⟩

/-- A search configuration as handed to `save_search_to_database` and
`add_property` (the dict built by `load_search_configs`,
`get_listing_and_agent.py` lines 69-77). -/
structure SearchCfg where
  search_value : String
  ne_lat : Option ℚ
  ne_long : Option ℚ
  sw_lat : Option ℚ
  sw_long : Option ℚ
  pagination : Int
  description : Option String

/-- A persisted `Property` row as constructed by `add_property`
(`database_models.py` lines 278-290).  `attributionFields` is the
keyword dict of fixed `attribution_*` column assignments; the basics
keep the raw values `property_data.get(...)` returns. -/
structure PropertyObj where
  search_term : String
  address : PyVal
  price : PyVal
  sold_by : PyVal
  url : PyVal
  ne_lat : Option ℚ
  ne_long : Option ℚ
  sw_lat : Option ℚ
  sw_long : Option ℚ
  attributionFields : List (String × Option String)
  attribution_extra : Option (List (String × PyVal))

/-- `DatabaseManager.add_property(property_data, search_config)`
(`database_models.py` lines 201-293).  Returns `Option.none` when the
constructed keyword dict itself contains `attribution_extra` (a key
`Attribution_extra`-like input), in which case Python raises a
duplicate-keyword `TypeError` at `Property(attribution_extra=...,
**attribution_fields)`; that exception is not an `SQLAlchemyError`. -/
def addProperty (propertyData : List (String × PyVal)) (cfg : SearchCfg) :
    Option PropertyObj :=
  let acc := buildAttribution propertyData
  if acc.fields.any (fun p => p.1 = "attribution_extra") then Option.none
  else some
    { search_term := cfg.search_value
      address := (dictGet propertyData "Address").getD (PyVal.str "")
      price := (dictGet propertyData "Price").getD (PyVal.str "")
      sold_by := (dictGet propertyData "Sold_By").getD (PyVal.str "")
      url := (dictGet propertyData "Url").getD (PyVal.str "")
      ne_lat := cfg.ne_lat
      ne_long := cfg.ne_long
      sw_lat := cfg.sw_lat
      sw_long := cfg.sw_long
      attributionFields := acc.fields
      attribution_extra :=
        if acc.extra.isEmpty then Option.none else some acc.extra }

/-!
### The property store

`DatabaseManager` holds one SQLAlchemy session over the `properties`
table.  The model keeps the committed table and the session's own view
(committed rows plus uncommitted pending changes); queries read the
session view, `commit` publishes it, `rollback` discards it.
-/

/-- Committed table plus the session's (possibly uncommitted) view of
the `properties` table. -/
structure DBState where
  committed : List PropertyObj
  pending : List PropertyObj

/-- `DatabaseManager.get_properties_by_search_term`
(`database_models.py` lines 307-317): a filtered query through the
session. -/
def getPropertiesBySearchTerm (st : DBState) (t : String) : List PropertyObj :=
  st.pending.filter (fun r => r.search_term = t)

/-- `DatabaseManager.commit`. -/
def commitDB (st : DBState) : DBState :=
  { committed := st.pending, pending := st.pending }

/-- `DatabaseManager.rollback`. -/
def rollbackDB (st : DBState) : DBState :=
  { committed := st.committed, pending := st.committed }

/-- `DatabaseManager.delete_properties_by_search_term`
(`database_models.py` lines 338-346): deletes the matching rows and
then commits — the commit happens inside this method, before any
subsequent inserts. -/
def deletePropertiesBySearchTerm (st : DBState) (t : String) : DBState :=
  commitDB { st with pending := st.pending.filter (fun r => ¬ r.search_term = t) }

/-- `session.add` of a freshly built `Property` row (the tail of
`add_property`): the row joins the session pending state, uncommitted. -/
def sessionAdd (st : DBState) (r : PropertyObj) : DBState :=
  { st with pending := st.pending ++ [r] }

/-- The `for property_data in properties_data: db_manager.add_property(...)`
loop of `save_search_to_database` (`get_listing_and_agent.py` lines
174-176), threading the saved counter.  `Option.none` models a
non-`SQLAlchemyError` exception escaping (the `TypeError` case of
`addProperty`). -/
def addLoop (cfg : SearchCfg) : DBState → List (List (String × PyVal)) → Nat →
    Option (Nat × DBState)
  | st, [], n => some (n, st)
  | st, d :: rest, n =>
    match addProperty d cfg with
    | Option.none => Option.none
    | some r => addLoop cfg (sessionAdd st r) rest (n + 1)

/-- `save_search_to_database(properties_data, config, db_manager)`
(`get_listing_and_agent.py` lines 158-187).

`insertFails = true` injects an `SQLAlchemyError` during the
add/commit phase (after the delete step): the handler rolls the
session back and reports `0`.  The rolled-back state does not depend
on which add (or the final commit) raised, because rollback discards
every pending insert, so a single flag captures all failure points of
the insert phase.  The outer `Option.none` again models a
non-`SQLAlchemyError` exception escaping the function uncaught. -/
def saveSearchToDatabase (propertiesData : List (List (String × PyVal)))
    (cfg : SearchCfg) (st : DBState) (insertFails : Bool) :
    Option (Nat × DBState) :=
  if propertiesData.isEmpty then some (0, st)
  else
    let existing := getPropertiesBySearchTerm st cfg.search_value
    let st1 := if existing.isEmpty then st
               else deletePropertiesBySearchTerm st cfg.search_value
    if insertFails then some (0, rollbackDB st1)
    else
      match addLoop cfg st1 propertiesData 0 with
      | Option.none => Option.none
      | some (n, st2) => some (n, commitDB st2)

/-!
### Retry with exponential backoff

`retry_with_backoff` (`get_listing_and_agent.py` lines 29-55).  The
wrapped operation is modelled as a function from the attempt index to
an `Except` outcome; the wrapper returns the final outcome together
with the number of invocations it performed.  The loop
`for attempt in range(max_retries + 1)` is mirrored by recursion on the
number of retries still remaining (`remaining = max_retries - attempt`),
with the source's `if attempt == max_retries: raise last_exception`
appearing as the `remaining = 0` base case.
-/

/-- The retry loop body of `retry_with_backoff`, positioned at a given
attempt index with a given number of retries remaining. -/
def retryLoop {ε α : Type} (f : Nat → Except ε α) :
    Nat → Nat → Except ε α × Nat
  | 0, attempt =>
    (match f attempt with
     | Except.ok a => (Except.ok a, attempt + 1)
     | Except.error e => (Except.error e, attempt + 1))
  | remaining + 1, attempt =>
    match f attempt with
    | Except.ok a => (Except.ok a, attempt + 1)
    | Except.error _ => retryLoop f remaining (attempt + 1)

/-- `retry_with_backoff(max_retries)` applied to an operation `f`:
the returned pair is (final outcome, number of invocations of `f`). -/
def retryWithBackoff {ε α : Type} (f : Nat → Except ε α)
    (maxRetries : Nat) : Except ε α × Nat :=
  retryLoop f maxRetries 0

/-- The evolution of the `delay` variable of `retry_with_backoff`
(`get_listing_and_agent.py` lines 35 and 51): it starts at
`base_delay` and is updated to `min(delay * backoff_factor, max_delay)`
after each sleep.  Floats are modelled by `ℚ`. -/
def delaySeq (base maxDelay factor : ℚ) : Nat → ℚ
  | 0 => base
  | k + 1 => min (delaySeq base maxDelay factor k * factor) maxDelay

/-- The time slept after failing attempt `k` (`get_listing_and_agent.py`
lines 46-47): `min(delay + jitter, max_delay)`, where the jitter drawn
by `random.uniform(0, 0.1 * delay)` is supplied by the oracle `j`. -/
def sleepAt (base maxDelay factor : ℚ) (j : Nat → ℚ) (k : Nat) : ℚ :=
  min (delaySeq base maxDelay factor k + j k) maxDelay

/-!
### Execution log

`ScraperLog` rows (`database_models.py` lines 154-183) and the
`ScraperLogger` operations that touch them (`scraper_logger.py`).
Timestamps are abstract `Nat` instants.
-/

/-- The `status` column of a `ScraperLog` row. -/
inductive LogStatus where
  | running : LogStatus
  | completed : LogStatus
  | failed : LogStatus
  | cancelled : LogStatus
deriving DecidableEq

/-- A `ScraperLog` row (the columns the logger operations touch). -/
structure LogState where
  status : LogStatus
  start_time : Nat
  end_time : Option Nat
  total_searches : Nat
  successful_searches : Nat
  total_properties : Nat
  properties_saved : Nat
  error_message : Option String
  log_file_path : Option String
deriving DecidableEq

/-- `DatabaseManager.create_scraper_log` (`database_models.py` lines
700-717): a fresh row with status `running` and no end time. -/
def createScraperLog (t : Nat) : LogState :=
  { status := LogStatus.running
    start_time := t
    end_time := Option.none
    total_searches := 0
    successful_searches := 0
    total_properties := 0
    properties_saved := 0
    error_message := Option.none
    log_file_path := Option.none }

/-- The `update_scraper_log` calls the `ScraperLogger` methods issue,
one constructor per distinct update dictionary:
`update_progress` (lines 74-89), `complete_success` (91-114),
`complete_failure` (116-135), `cancel` (137-146) and the
`log_file_path` update inside `close` (148-157). -/
inductive LogOp where
  | updateProgress (ts ss tp ps : Nat) : LogOp
  | completeSuccess (t ts ss tp ps : Nat) : LogOp
  | completeFailure (t : Nat) (msg : String) : LogOp
  | cancel (t : Nat) : LogOp
  | close (path : String) : LogOp

/-- Effect of one logger operation on the `ScraperLog` row. -/
def applyLogOp (s : LogState) : LogOp → LogState
  | LogOp.updateProgress ts ss tp ps =>
    { s with total_searches := ts, successful_searches := ss,
             total_properties := tp, properties_saved := ps }
  | LogOp.completeSuccess t ts ss tp ps =>
    { s with status := LogStatus.completed, end_time := some t,
             total_searches := ts, successful_searches := ss,
             total_properties := tp, properties_saved := ps }
  | LogOp.completeFailure t msg =>
    { s with status := LogStatus.failed, end_time := some t,
             error_message := some msg }
  | LogOp.cancel t =>
    { s with status := LogStatus.cancelled, end_time := some t }
  | LogOp.close path =>
    { s with log_file_path := some path }

/-- The row produced by creating the log at instant `t0` and then
running a sequence of logger operations. -/
def runLog (t0 : Nat) (ops : List LogOp) : LogState :=
  ops.foldl applyLogOp (createScraperLog t0)

/-- Whether an operation writes the `end_time` column (exactly the
terminal updates do). -/
def setsEndTime : LogOp → Bool
  | LogOp.completeSuccess _ _ _ _ _ => true
  | LogOp.completeFailure _ _ => true
  | LogOp.cancel _ => true
  | _ => false

/-- How many operations of a run wrote `end_time`. -/
def endTimeWrites (ops : List LogOp) : Nat :=
  (ops.filter setsEndTime).length

/-- The logger operations `main`'s exception path performs
(`get_listing_and_agent.py` lines 358-360 together with
`scraper_logger.py` lines 190-195): the `except` handler calls
`complete_failure` (which also runs `close`), then re-raises, and the
`with`-block `__exit__` sees the exception and calls `complete_failure`
a second time, at a later instant and with its own message. -/
def mainExceptionOps (t1 t2 : Nat) (m1 m2 path : String) : List LogOp :=
  [LogOp.completeFailure t1 m1, LogOp.close path,
   LogOp.completeFailure t2 m2, LogOp.close path]

/-- The logger operations of a `main` run in which
`load_search_configs` returns no active configuration
(`get_listing_and_agent.py` lines 254-259): a warning is printed and
`main` returns; `__exit__` then runs with no exception, which only
calls `close` (`scraper_logger.py` lines 190-195) — no terminal update
is ever issued. -/
def mainRunNoConfigs (t0 : Nat) (path : String) : LogState :=
  runLog t0 [LogOp.close path]

/-!
### Scheduler

`ScraperScheduler.run_now` (`scraper_scheduler.py` lines 189-199) and
`run_scheduled_scraper` (lines 78-101) share the field
`self.current_job` with no lock.  Each trigger executes two separate
statements on it: first the check
`if self.current_job and self.current_job.is_alive()` (lines 84, 191),
then — only when the check saw no live job —
`self.current_job = threading.Thread(...); self.current_job.start()`
(lines 89-90, 195-196).  The model's atomic steps are exactly these
source statements, so traces may interleave the check and the start of
different triggers (timer thread vs. a `run_now` caller), as the
unsynchronized source allows.  `finish` is the `finally` of
`_run_scraper_process` (line 124), which unconditionally clears
`current_job`.
-/

/-- Scheduler shared state at the granularity the source manipulates
it: whether `current_job` refers to a live thread, how many triggers
have passed their aliveness check but not yet executed their
`Thread(...).start()`, and how many executor threads are running. -/
structure SchedState where
  currentAlive : Bool
  passedCheck : Nat
  liveExecutors : Nat
deriving DecidableEq

/-- Result dict returned by `run_now`. -/
structure RunNowResult where
  success : Bool
  message : String
deriving DecidableEq

/-- The atomic micro-events of the scheduler, one per source statement
touching `current_job`:

* `checkPass` — a trigger evaluates the aliveness check and sees no
  live job (it will go on to start a thread);
* `checkBlocked` — a trigger evaluates the check and sees a live job
  (`run_now` returns its failure dict, a tick just returns);
* `start` — a trigger that passed its check assigns `current_job` and
  starts the executor thread;
* `finish` — an executor thread's `finally` clears `current_job`. -/
inductive SchedMicro where
  | checkPass : SchedMicro
  | checkBlocked : SchedMicro
  | start : SchedMicro
  | finish : SchedMicro

/-- Effect of one micro-event on the shared state.  Events whose
precondition does not hold (a `checkPass` while a job is alive, a
`start` with no passed check pending, a `finish` with no executor)
leave the state unchanged. -/
def microStep (s : SchedState) : SchedMicro → SchedState
  | SchedMicro.checkPass =>
    if s.currentAlive then s
    else { s with passedCheck := s.passedCheck + 1 }
  | SchedMicro.checkBlocked => s
  | SchedMicro.start =>
    if s.passedCheck = 0 then s
    else { currentAlive := true, passedCheck := s.passedCheck - 1,
           liveExecutors := s.liveExecutors + 1 }
  | SchedMicro.finish =>
    if s.liveExecutors = 0 then s
    else { currentAlive := false, passedCheck := s.passedCheck,
           liveExecutors := s.liveExecutors - 1 }

/-- The shared state after a sequence of micro-events, starting idle:
no live job, no pending starts, no executors. -/
def microRun (l : List SchedMicro) : SchedState :=
  l.foldl microStep { currentAlive := false, passedCheck := 0, liveExecutors := 0 }

/-- The body of `run_now` executed without interleaving: the failure
dict and no state change when the check sees a live job, otherwise its
`checkPass` immediately followed by its `start` and the success
dict. -/
def runNowCall (s : SchedState) : SchedState × RunNowResult :=
  if s.currentAlive then
    (s, { success := false, message := "Scraper is already running" })
  else
    (microStep (microStep s SchedMicro.checkPass) SchedMicro.start,
     { success := true, message := "Scraper started manually" })

/-- The body of `run_scheduled_scraper` executed without interleaving;
the boolean records whether `schedule_next_run` was invoked (it is not
reached when the check sees a live job — the trigger is dropped, not
queued). -/
def tickCall (s : SchedState) : SchedState × Bool :=
  if s.currentAlive then (s, false)
  else
    (microStep (microStep s SchedMicro.checkPass) SchedMicro.start, true)

/-- Serialized trigger events: each trigger body runs to completion
before the next event. -/
inductive SchedTrigger where
  | runNow : SchedTrigger
  | tick : SchedTrigger
  | finish : SchedTrigger

/-- One serialized trigger step. -/
def serializedStep (s : SchedState) : SchedTrigger → SchedState
  | SchedTrigger.runNow => (runNowCall s).1
  | SchedTrigger.tick => (tickCall s).1
  | SchedTrigger.finish => microStep s SchedMicro.finish

/-- The shared state after a sequence of serialized triggers, starting
idle. -/
def serializedRun (l : List SchedTrigger) : SchedState :=
  l.foldl serializedStep { currentAlive := false, passedCheck := 0, liveExecutors := 0 }

/-!
### Scraper configuration

`ScraperConfig` (`database_models.py` lines 129-151) and
`DatabaseManager.update_scraper_config` (lines 656-678), plus the
`ScraperScheduler.update_config` wrapper (`scraper_scheduler.py`
lines 126-153).  Updates carry integer values; the claims concern the
integer-valued columns.
-/

/-- The integer-valued columns of the single `ScraperConfig` row. -/
structure ScraperCfg where
  is_enabled : Int
  schedule_interval_minutes : Int
  max_concurrent_workers : Int
  timeout_minutes : Int
  retry_attempts : Int
  updated_at : Nat
deriving DecidableEq

/-- The default `ScraperConfig()` row (`database_models.py` lines
136-144). -/
def defaultScraperCfg : ScraperCfg :=
  { is_enabled := 1
    schedule_interval_minutes := 10
    max_concurrent_workers := 5
    timeout_minutes := 5
    retry_attempts := 3
    updated_at := 0 }

/-- `setattr(config, key, value)` guarded by `hasattr(config, key)`:
a recognized key overwrites its column, any other key is ignored. -/
def applyCfgUpdate (c : ScraperCfg) (kv : String × Int) : ScraperCfg :=
  if kv.1 = "is_enabled" then { c with is_enabled := kv.2 }
  else if kv.1 = "schedule_interval_minutes" then
    { c with schedule_interval_minutes := kv.2 }
  else if kv.1 = "max_concurrent_workers" then
    { c with max_concurrent_workers := kv.2 }
  else if kv.1 = "timeout_minutes" then { c with timeout_minutes := kv.2 }
  else if kv.1 = "retry_attempts" then { c with retry_attempts := kv.2 }
  else c

/-- `DatabaseManager.update_scraper_config(updates)`
(`database_models.py` lines 656-678): every recognized field of the
update dict is applied as given — there is no bounds check of any
kind — `updated_at` is refreshed, the row is committed and `True` is
returned. -/
def updateScraperConfig (c : ScraperCfg) (updates : List (String × Int))
    (now : Nat) : Bool × ScraperCfg :=
  (true, { updates.foldl applyCfgUpdate c with updated_at := now })

/-- `ScraperScheduler.update_config(new_config)`
(`scraper_scheduler.py` lines 126-153): delegates to
`update_scraper_config` with no added validation, reloads the stored
row and re-registers the `schedule` job (`setup_scheduler`); it does
not recompute the stored `next_scheduled_run` column. -/
def schedulerUpdateConfig (c : ScraperCfg) (updates : List (String × Int))
    (now : Nat) : Bool × ScraperCfg :=
  let r := updateScraperConfig c updates now
  (r.1, if r.1 then r.2 else c)

/-!
## Theorems
-/

/-- C9: if the fetch produced zero records, `save_search_to_database`
reports zero saved and leaves the store completely unchanged — in
particular it performs no deletion, so every existing record for the
configuration's search term survives; prior records can only be
deleted on the nonempty branch. -/
theorem c9_empty_fetch_frame (cfg : SearchCfg) (st : DBState)
    (insertFails : Bool) :
    saveSearchToDatabase [] cfg st insertFails = some (0, st) := rfl

/-- A serialized trigger step preserves: no pending unstarted check,
at most one executor, and the alive flag tracking the executor
count. -/
theorem serializedStep_inv (s : SchedState) (e : SchedTrigger)
    (h : s.passedCheck = 0 ∧ s.liveExecutors ≤ 1 ∧
      (s.currentAlive = true ↔ s.liveExecutors = 1)) :
    (serializedStep s e).passedCheck = 0 ∧
      (serializedStep s e).liveExecutors ≤ 1 ∧
      ((serializedStep s e).currentAlive = true ↔
        (serializedStep s e).liveExecutors = 1) := by
  obtain ⟨h0, h1, h2⟩ := h
  cases e with
  | runNow =>
    by_cases hf : s.currentAlive = true
    · simp [serializedStep, runNowCall, hf, h0, h1, h2, h2.mp hf]
    · have hz : s.liveExecutors = 0 := by
        rcases Nat.lt_or_ge s.liveExecutors 1 with hl | hl
        · omega
        · exact absurd (h2.mpr (by omega)) hf
      simp [serializedStep, runNowCall, microStep, hf, h0, hz]
  | tick =>
    by_cases hf : s.currentAlive = true
    · simp [serializedStep, tickCall, hf, h0, h1, h2, h2.mp hf]
    · have hz : s.liveExecutors = 0 := by
        rcases Nat.lt_or_ge s.liveExecutors 1 with hl | hl
        · omega
        · exact absurd (h2.mpr (by omega)) hf
      simp [serializedStep, tickCall, microStep, hf, h0, hz]
  | finish =>
    by_cases hz : s.liveExecutors = 0
    · simp [serializedStep, microStep, hz, h0, h2]
    · have ho : s.liveExecutors = 1 := by omega
      simp [serializedStep, microStep, hz, h0, ho]

/-- The serialized-trigger invariant holds along every serialized
trace. -/
theorem serializedRun_inv (l : List SchedTrigger) :
    (serializedRun l).passedCheck = 0 ∧
      (serializedRun l).liveExecutors ≤ 1 ∧
      ((serializedRun l).currentAlive = true ↔
        (serializedRun l).liveExecutors = 1) := by
  suffices h : ∀ (t : List SchedTrigger) (s : SchedState),
      s.passedCheck = 0 ∧ s.liveExecutors ≤ 1 ∧
        (s.currentAlive = true ↔ s.liveExecutors = 1) →
      (t.foldl serializedStep s).passedCheck = 0 ∧
        (t.foldl serializedStep s).liveExecutors ≤ 1 ∧
        ((t.foldl serializedStep s).currentAlive = true ↔
          (t.foldl serializedStep s).liveExecutors = 1) by
    exact h l { currentAlive := false, passedCheck := 0, liveExecutors := 0 }
      (by simp)
  intro t
  induction t with
  | nil => intro s hs; exact hs
  | cons e rest ih => intro s hs; exact ih _ (serializedStep_inv s e hs)

/-- C2 counterexample: the aliveness check and the thread start are
separate unsynchronized statements, so two concurrent triggers (the
timer thread's `run_scheduled_scraper` and a `run_now` caller) can
both pass the check before either starts its thread; the interleaving
check–check–start–start leaves two executor threads running at once,
refuting "at most one executor runs at any time". -/
theorem c2_counterexample :
    (microRun [SchedMicro.checkPass, SchedMicro.checkPass,
      SchedMicro.start, SchedMicro.start]).liveExecutors = 2 ∧
    ¬ ((microRun [SchedMicro.checkPass, SchedMicro.checkPass,
      SchedMicro.start, SchedMicro.start]).liveExecutors ≤ 1) := by
  refine ⟨rfl, by decide⟩

/-- C2 amended: a `run_now` whose aliveness check sees a live job
returns the `'Scraper is already running'` failure dict and starts no
second executor; a scheduled tick whose check sees a live job starts
nothing and never reaches `schedule_next_run` (the trigger is dropped,
not queued); and along any trace of *serialized* triggers — each
check-then-start body running without interleaving — at most one
executor is ever alive.  But the check and the start are not atomic in
the source (no lock), so interleaved triggers from different threads
can both pass the check and start two executors: "at most one executor
runs at any time" is not guaranteed. -/
theorem c2_single_flight :
    (∀ s : SchedState, s.currentAlive = true →
       runNowCall s = (s, { success := false
                            message := "Scraper is already running" })) ∧
    (∀ s : SchedState, s.currentAlive = true → tickCall s = (s, false)) ∧
    (∀ l : List SchedTrigger, (serializedRun l).liveExecutors ≤ 1) ∧
    (∃ l : List SchedMicro, (microRun l).liveExecutors = 2) :=
  ⟨fun s h => by simp [runNowCall, h],
   fun s h => by simp [tickCall, h],
   fun l => (serializedRun_inv l).2.1,
   ⟨[SchedMicro.checkPass, SchedMicro.checkPass,
     SchedMicro.start, SchedMicro.start], rfl⟩⟩

/-- Witness for C2: with a job alive, a manual trigger is rejected with
the exact failure dict and the state is untouched. -/
theorem c2_single_flight_witness :
    runNowCall { currentAlive := true, passedCheck := 0, liveExecutors := 1 } =
      ({ currentAlive := true, passedCheck := 0, liveExecutors := 1 },
       { success := false, message := "Scraper is already running" }) :=
  c2_single_flight.1
    { currentAlive := true, passedCheck := 0, liveExecutors := 1 } rfl

/-- The retry loop performs at most `attempt + remaining + 1`
invocations in total. -/
theorem retryLoop_count_le {ε α : Type} (f : Nat → Except ε α) :
    ∀ (remaining attempt : Nat),
      (retryLoop f remaining attempt).2 ≤ attempt + remaining + 1 := by
  intro remaining
  induction remaining with
  | zero =>
    intro attempt
    unfold retryLoop
    cases f attempt <;> simp
  | succ r ih =>
    intro attempt
    unfold retryLoop
    cases f attempt with
    | ok a => simp
    | error e => calc (retryLoop f r (attempt + 1)).2 ≤ attempt + 1 + r + 1 := ih (attempt + 1)
        _ ≤ attempt + (r + 1) + 1 := by omega

/-- If every attempt in range fails, the loop runs to the last attempt
and returns that attempt's own outcome, having invoked the operation
once per attempt. -/
theorem retryLoop_all_fail {ε α : Type} (f : Nat → Except ε α) :
    ∀ (remaining attempt : Nat),
      (∀ j, attempt ≤ j → j ≤ attempt + remaining → ∃ e, f j = Except.error e) →
      retryLoop f remaining attempt = (f (attempt + remaining), attempt + remaining + 1) := by
  intro remaining
  induction remaining with
  | zero =>
    intro attempt h
    obtain ⟨e, he⟩ := h attempt (le_refl _) (by omega)
    unfold retryLoop
    rw [show attempt + 0 = attempt from rfl, he]
  | succ r ih =>
    intro attempt h
    obtain ⟨e, he⟩ := h attempt (le_refl _) (by omega)
    unfold retryLoop
    rw [he]
    have := ih (attempt + 1) (fun j h1 h2 => h j (by omega) (by omega))
    rw [this]
    have harr : attempt + 1 + r = attempt + (r + 1) := by omega
    rw [harr]

/-- If attempt `i` is the first success, the loop stops there and
returns its result after `i + 1` invocations. -/
theorem retryLoop_first_success {ε α : Type} (f : Nat → Except ε α) :
    ∀ (remaining attempt i : Nat) (a : α),
      i ≤ remaining → f (attempt + i) = Except.ok a →
      (∀ j, j < i → ∃ e, f (attempt + j) = Except.error e) →
      retryLoop f remaining attempt = (Except.ok a, attempt + i + 1) := by
  intro remaining
  induction remaining with
  | zero =>
    intro attempt i a hi hok _
    have hi0 : i = 0 := by omega
    subst hi0
    unfold retryLoop
    rw [show attempt + 0 = attempt from rfl] at hok ⊢
    rw [hok]
  | succ r ih =>
    intro attempt i a hi hok hfail
    cases i with
    | zero =>
      unfold retryLoop
      rw [show attempt + 0 = attempt from rfl] at hok ⊢
      rw [hok]
    | succ i0 =>
      obtain ⟨e, he⟩ := hfail 0 (by omega)
      rw [show attempt + 0 = attempt from rfl] at he
      unfold retryLoop
      rw [he]
      have := ih (attempt + 1) i0 a (by omega)
        (by rw [show attempt + 1 + i0 = attempt + (i0 + 1) from by omega]; exact hok)
        (fun j hj => by
          rw [show attempt + 1 + j = attempt + (j + 1) from by omega]
          exact hfail (j + 1) (by omega))
      rw [this]
      have harr : attempt + 1 + i0 = attempt + (i0 + 1) := by omega
      rw [harr]

/-- C3: the wrapper invokes the operation at most `max_retries + 1`
times; an operation that fails on every invocation is invoked exactly
`max_retries + 1` times and the wrapper's final outcome is the
operation's own last outcome, unchanged; an operation whose first
success is at attempt `i` has that result returned unchanged after
`i + 1` invocations. -/
theorem c3_retry_termination {ε α : Type} (f : Nat → Except ε α) (m : Nat) :
    (retryWithBackoff f m).2 ≤ m + 1 ∧
    ((∀ k, k ≤ m → ∃ e, f k = Except.error e) →
       retryWithBackoff f m = (f m, m + 1)) ∧
    (∀ (i : Nat) (a : α), i ≤ m → f i = Except.ok a →
       (∀ j, j < i → ∃ e, f j = Except.error e) →
       retryWithBackoff f m = (Except.ok a, i + 1)) := by
  refine ⟨?_, ?_, ?_⟩
  · have := retryLoop_count_le f m 0
    simpa [retryWithBackoff] using this
  · intro h
    have := retryLoop_all_fail f m 0 (fun j h1 h2 => h j (by omega))
    simpa [retryWithBackoff] using this
  · intro i a hi hok hfail
    have := retryLoop_first_success f m 0 i a hi (by simpa using hok)
      (fun j hj => by simpa using hfail j hj)
    simpa [retryWithBackoff] using this

/-- An operation that fails on every attempt, failing with its own
attempt index. -/
def alwaysFailOp (k : Nat) : Except Nat Unit := Except.error k

/-- Witness for C3: with `max_retries = 2`, the always-failing
operation is invoked exactly three times and the error finally raised
is the operation's own last error. -/
theorem c3_retry_termination_witness :
    retryWithBackoff alwaysFailOp 2 = (Except.error 2, 3) :=
  (c3_retry_termination alwaysFailOp 2).2.1 (fun k _ => ⟨k, rfl⟩)

/-- C6 counterexample: when no active search configuration exists,
`main` returns early and its `ScraperLog` row is left with status
`running` — it is not finalized as `completed` (nor as anything
else), contrary to the claim. -/
theorem c6_counterexample :
    (mainRunNoConfigs 0 "log.txt").status = LogStatus.running ∧
    (mainRunNoConfigs 0 "log.txt").status ≠ LogStatus.completed ∧
    (mainRunNoConfigs 0 "log.txt").end_time = Option.none := by
  refine ⟨rfl, ?_, rfl⟩
  intro h
  exact LogStatus.noConfusion h

/-- C6 amended: when loading active search configurations yields an
empty list, the run logs a warning and returns early; its ExecutionLog
keeps all four counters at zero and is left in the non-terminal state
`running` with null end time (only the log-file path is recorded) —
it is finalized neither as `completed` nor as `failed`. -/
theorem c6_no_configs_left_running (t0 : Nat) (path : String) :
    (mainRunNoConfigs t0 path).status = LogStatus.running ∧
    (mainRunNoConfigs t0 path).end_time = Option.none ∧
    (mainRunNoConfigs t0 path).total_searches = 0 ∧
    (mainRunNoConfigs t0 path).successful_searches = 0 ∧
    (mainRunNoConfigs t0 path).total_properties = 0 ∧
    (mainRunNoConfigs t0 path).properties_saved = 0 ∧
    (mainRunNoConfigs t0 path).status ≠ LogStatus.completed ∧
    (mainRunNoConfigs t0 path).status ≠ LogStatus.failed ∧
    (mainRunNoConfigs t0 path).log_file_path = some path := by
  refine ⟨rfl, rfl, rfl, rfl, rfl, rfl, ?_, ?_, rfl⟩ <;> intro h <;>
    exact LogStatus.noConfusion h

/-- The last value an update dict assigns to a key, or a default when
the key never occurs. -/
def lastOr (updates : List (String × Int)) (key : String) (dflt : Int) : Int :=
  updates.foldl (fun acc kv => if kv.1 = key then kv.2 else acc) dflt

/-- How one update entry affects the `schedule_interval_minutes`
column. -/
theorem applyCfgUpdate_interval (c : ScraperCfg) (kv : String × Int) :
    (applyCfgUpdate c kv).schedule_interval_minutes =
      if kv.1 = "schedule_interval_minutes" then kv.2
      else c.schedule_interval_minutes := by
  unfold applyCfgUpdate
  split_ifs with h1 h2 h3 h4 h5 <;> simp_all

/-- How one update entry affects the `timeout_minutes` column. -/
theorem applyCfgUpdate_timeout (c : ScraperCfg) (kv : String × Int) :
    (applyCfgUpdate c kv).timeout_minutes =
      if kv.1 = "timeout_minutes" then kv.2 else c.timeout_minutes := by
  unfold applyCfgUpdate
  split_ifs with h1 h2 h3 h4 h5 <;> simp_all

/-- The update fold realizes last-write-wins on the interval column. -/
theorem foldCfg_interval (updates : List (String × Int)) :
    ∀ c : ScraperCfg,
      (updates.foldl applyCfgUpdate c).schedule_interval_minutes =
        lastOr updates "schedule_interval_minutes" c.schedule_interval_minutes := by
  induction updates with
  | nil => intro c; rfl
  | cons kv rest ih =>
    intro c
    show (rest.foldl applyCfgUpdate (applyCfgUpdate c kv)).schedule_interval_minutes = _
    rw [ih (applyCfgUpdate c kv), applyCfgUpdate_interval]
    rfl

/-- The update fold realizes last-write-wins on the timeout column. -/
theorem foldCfg_timeout (updates : List (String × Int)) :
    ∀ c : ScraperCfg,
      (updates.foldl applyCfgUpdate c).timeout_minutes =
        lastOr updates "timeout_minutes" c.timeout_minutes := by
  induction updates with
  | nil => intro c; rfl
  | cons kv rest ih =>
    intro c
    show (rest.foldl applyCfgUpdate (applyCfgUpdate c kv)).timeout_minutes = _
    rw [ih (applyCfgUpdate c kv), applyCfgUpdate_timeout]
    rfl

/-- C7 counterexample: an update putting the schedule interval at `0`
minutes — outside the claimed 1–1440 bound — is accepted
(`update_scraper_config` returns `True`) and the stored configuration
is mutated to the out-of-range value, contrary to the claimed
validate-then-apply behavior. -/
theorem c7_counterexample :
    (updateScraperConfig defaultScraperCfg
        [("schedule_interval_minutes", 0)] 5).1 = true ∧
    (updateScraperConfig defaultScraperCfg
        [("schedule_interval_minutes", 0)] 5).2.schedule_interval_minutes = 0 ∧
    ¬ (1 ≤ (0 : Int)) ∧
    (updateScraperConfig defaultScraperCfg
        [("schedule_interval_minutes", 0)] 5).2 ≠ defaultScraperCfg := by
  refine ⟨rfl, rfl, by decide, ?_⟩
  intro h
  have := congrArg ScraperCfg.schedule_interval_minutes h
  simp [updateScraperConfig, applyCfgUpdate, defaultScraperCfg] at this

/-- C7 amended: the configuration-update operation performs no bounds
validation at all — it unconditionally reports success and applies
every recognized field of the partial update as given (last write
wins), whatever the interval or timeout values are; the scheduler
wrapper adds no validation either. -/
theorem c7_update_no_validation (c : ScraperCfg)
    (updates : List (String × Int)) (now : Nat) :
    (schedulerUpdateConfig c updates now).1 = true ∧
    (schedulerUpdateConfig c updates now).2.schedule_interval_minutes =
      lastOr updates "schedule_interval_minutes" c.schedule_interval_minutes ∧
    (schedulerUpdateConfig c updates now).2.timeout_minutes =
      lastOr updates "timeout_minutes" c.timeout_minutes ∧
    (schedulerUpdateConfig c updates now).2.updated_at = now := by
  refine ⟨rfl, ?_, ?_, rfl⟩
  · show (updates.foldl applyCfgUpdate c).schedule_interval_minutes = _
    exact foldCfg_interval updates c
  · show (updates.foldl applyCfgUpdate c).timeout_minutes = _
    exact foldCfg_timeout updates c

/-- Every logger operation preserves the coupling between a null end
time and the `running` status. -/
theorem applyLogOp_end_time_iff (s : LogState) (op : LogOp)
    (h : s.end_time = Option.none ↔ s.status = LogStatus.running) :
    (applyLogOp s op).end_time = Option.none ↔
      (applyLogOp s op).status = LogStatus.running := by
  cases op <;> simp [applyLogOp, h]

/-- A step never brings the status back to `running`. -/
theorem applyLogOp_status_back (s : LogState) (op : LogOp)
    (h : (applyLogOp s op).status = LogStatus.running) :
    s.status = LogStatus.running := by
  cases op <;> simp [applyLogOp] at h <;> simp [h]

/-- C4 counterexample: in `main`'s exception path the terminal update
runs twice — `complete_failure` is called from the `except` handler
and then again from `__exit__` after the re-raise — so `end_time` is
written twice, not exactly once: after the first call it holds the
first instant, after the second it has been overwritten with the
later instant. -/
theorem c4_counterexample :
    endTimeWrites (mainExceptionOps 3 4 "boom" "exit boom" "log.txt") = 2 ∧
    (2 : Nat) ≠ 1 ∧
    (runLog 0 [LogOp.completeFailure 3 "boom"]).end_time = some 3 ∧
    (runLog 0 (mainExceptionOps 3 4 "boom" "exit boom" "log.txt")).end_time = some 4 ∧
    some 4 ≠ some 3 := by
  refine ⟨rfl, by decide, rfl, rfl, by decide⟩

/-- C4 amended: a run's ExecutionLog row is created with status
`running` and null end time; `end_time` is null exactly while the
status is `running`; once the status has left `running` it never
returns to it; and `end_time` is written only by the terminal updates
— but the terminal update is not guaranteed to run exactly once: in
`main`'s exception path `complete_failure` executes twice (handler
plus `__exit__`), writing `end_time` twice. -/
theorem c4_log_lifecycle (t0 : Nat) :
    (createScraperLog t0).status = LogStatus.running ∧
    (createScraperLog t0).end_time = Option.none ∧
    (∀ ops : List LogOp,
       (runLog t0 ops).end_time = Option.none ↔
         (runLog t0 ops).status = LogStatus.running) ∧
    (∀ ops more : List LogOp, (runLog t0 ops).status ≠ LogStatus.running →
       (runLog t0 (ops ++ more)).status ≠ LogStatus.running) ∧
    (∀ (t1 t2 : Nat) (m1 m2 p : String),
       endTimeWrites (mainExceptionOps t1 t2 m1 m2 p) = 2) := by
  refine ⟨rfl, rfl, ?_, ?_, fun t1 t2 m1 m2 p => rfl⟩
  · intro ops
    suffices h : ∀ (l : List LogOp) (s : LogState),
        (s.end_time = Option.none ↔ s.status = LogStatus.running) →
        ((l.foldl applyLogOp s).end_time = Option.none ↔
          (l.foldl applyLogOp s).status = LogStatus.running) by
      exact h ops (createScraperLog t0) (by simp [createScraperLog])
    intro l
    induction l with
    | nil => intro s hs; exact hs
    | cons op rest ih => intro s hs; exact ih _ (applyLogOp_end_time_iff s op hs)
  · intro ops more h
    rw [runLog, List.foldl_append]
    suffices hmono : ∀ (l : List LogOp) (s : LogState),
        s.status ≠ LogStatus.running →
        (l.foldl applyLogOp s).status ≠ LogStatus.running by
      exact hmono more _ h
    intro l
    induction l with
    | nil => intro s hs; exact hs
    | cons op rest ih =>
      intro s hs
      exact ih _ (fun hop => hs (applyLogOp_status_back s op hop))

/-- Witness for C4: a run finalized by one `complete_failure` is no
longer `running`, and stays that way after further operations. -/
theorem c4_log_lifecycle_witness :
    (runLog 0 ([LogOp.completeFailure 3 "boom"] ++ [LogOp.close "log.txt"])).status ≠
      LogStatus.running :=
  (c4_log_lifecycle 0).2.2.2.1 [LogOp.completeFailure 3 "boom"] [LogOp.close "log.txt"]
    (fun h => LogStatus.noConfusion h)

/-- The backoff delay is never negative. -/
theorem delaySeq_nonneg (base maxDelay factor : ℚ) (hb : 0 ≤ base)
    (hm : 0 ≤ maxDelay) (hf : 0 ≤ factor) :
    ∀ k, 0 ≤ delaySeq base maxDelay factor k := by
  intro k
  induction k with
  | zero => exact hb
  | succ n ih => exact le_min (mul_nonneg ih hf) hm

/-- With a backoff factor of at least one, the iteratively capped delay
agrees with the one-shot formula: at every step it is either the
uncapped `base * factor ^ k` or it has hit the cap `max_delay` (and the
uncapped value is at least the cap). -/
theorem delaySeq_eq_or_capped (base maxDelay factor : ℚ) (_hb : 0 ≤ base)
    (hm : 0 ≤ maxDelay) (hf : 1 ≤ factor) :
    ∀ k, delaySeq base maxDelay factor k = base * factor ^ k ∨
      (delaySeq base maxDelay factor k = maxDelay ∧
        maxDelay ≤ base * factor ^ k) := by
  have hf0 : (0 : ℚ) ≤ factor := le_trans zero_le_one hf
  intro k
  induction k with
  | zero => left; simp [delaySeq]
  | succ n ih =>
    have hps : base * factor ^ n * factor = base * factor ^ (n + 1) := by
      rw [pow_succ, mul_assoc]
    rcases ih with h | ⟨h, hle⟩
    · rcases le_total (base * factor ^ (n + 1)) maxDelay with hc | hc
      · left
        show min (delaySeq base maxDelay factor n * factor) maxDelay = _
        rw [h, hps]
        exact min_eq_left hc
      · right
        constructor
        · show min (delaySeq base maxDelay factor n * factor) maxDelay = _
          rw [h, hps]
          exact min_eq_right hc
        · exact hc
    · right
      have hpow : base * factor ^ n ≤ base * factor ^ (n + 1) := by
        rw [pow_succ, ← mul_assoc]
        exact le_mul_of_one_le_right
          (le_trans hm hle) hf
      constructor
      · show min (delaySeq base maxDelay factor n * factor) maxDelay = _
        rw [h]
        exact min_eq_right (le_mul_of_one_le_right hm hf)
      · exact le_trans hle hpow

/-- C8 counterexample: with `base_delay = 1000`, `max_delay = 60` and
`backoff_factor = 1/2`, at retry attempt `k = 2` (jitter draw `0`,
a legal `uniform(0, 0.1 * delay)` outcome) the code sleeps `30`
seconds, while the claimed formula
`min(base * factor ^ k + jitter, max_delay)` yields `60` for every
nonnegative jitter — the claim's formula does not describe the code
for these parameter values. -/
theorem c8_counterexample :
    (0 : ℚ) ≤ 0 ∧
    (0 : ℚ) ≤ (1 / 10) * delaySeq 1000 60 (1 / 2) 2 ∧
    sleepAt 1000 60 (1 / 2) (fun _ => 0) 2 = 30 ∧
    (∀ jit : ℚ, 0 ≤ jit → min ((1000 : ℚ) * (1 / 2) ^ 2 + jit) 60 = 60) ∧
    (30 : ℚ) ≠ 60 := by
  have hd2 : delaySeq 1000 60 (1 / 2) 2 = 30 := by
    show min (min ((1000 : ℚ) * (1 / 2)) 60 * (1 / 2)) 60 = 30
    norm_num
  refine ⟨le_refl 0, by rw [hd2]; norm_num, ?_, ?_, by norm_num⟩
  · show min (delaySeq 1000 60 (1 / 2) 2 + 0) 60 = 30
    rw [hd2]
    norm_num
  · intro jit hj
    have : (60 : ℚ) ≤ 1000 * (1 / 2) ^ 2 + jit := by nlinarith
    exact min_eq_right this

/-- C8 amended: the sleep before any retry never exceeds `max_delay`,
for any parameters whatsoever; and whenever the backoff factor is at
least one (as in both policy instances used by the scraper), the sleep
after failing attempt `k` equals
`min(base_delay * backoff_factor ^ k + jitter, max_delay)` for some
jitter in `[0, 10% of base_delay * backoff_factor ^ k]`.  For a factor
below one combined with a base above the cap the code's iteratively
capped delay diverges from that formula (see the counterexample). -/
theorem c8_backoff_sleep_bound (base maxDelay factor : ℚ) (j : Nat → ℚ)
    (hb : 0 ≤ base) (hm : 0 ≤ maxDelay) (hf : 1 ≤ factor)
    (hj : ∀ i, 0 ≤ j i ∧ j i ≤ (1 / 10) * delaySeq base maxDelay factor i) :
    (∀ k, ∃ jit : ℚ, 0 ≤ jit ∧ jit ≤ (1 / 10) * (base * factor ^ k) ∧
       sleepAt base maxDelay factor j k = min (base * factor ^ k + jit) maxDelay) ∧
    (∀ (b m fac : ℚ) (jj : Nat → ℚ) (k : Nat), sleepAt b m fac jj k ≤ m) := by
  constructor
  · intro k
    rcases delaySeq_eq_or_capped base maxDelay factor hb hm hf k with h | ⟨h, hle⟩
    · refine ⟨j k, (hj k).1, ?_, ?_⟩
      · have := (hj k).2
        rwa [h] at this
      · show min (delaySeq base maxDelay factor k + j k) maxDelay = _
        rw [h]
    · refine ⟨0, le_refl 0, ?_, ?_⟩
      · have : (0 : ℚ) ≤ base * factor ^ k := le_trans hm hle
        nlinarith
      · show min (delaySeq base maxDelay factor k + j k) maxDelay = _
        rw [h, add_zero]
        rw [min_eq_right (le_add_of_nonneg_right (hj k).1),
          min_eq_right hle]
  · intro b m fac jj k
    exact min_le_right _ _

/-- Witness for C8: at base 1, cap 60, factor 2 and the zero jitter
draw, the first sleep is `min(1 * 2 ^ 0 + 0, 60)`. -/
theorem c8_backoff_sleep_bound_witness :
    ∃ jit : ℚ, 0 ≤ jit ∧ jit ≤ (1 / 10) * ((1 : ℚ) * 2 ^ 0) ∧
      sleepAt 1 60 2 (fun _ => 0) 0 = min ((1 : ℚ) * 2 ^ 0 + jit) 60 :=
  (c8_backoff_sleep_bound 1 60 2 (fun _ => 0) (by norm_num) (by norm_num)
    (by norm_num)
    (fun i => ⟨le_refl 0, mul_nonneg (by norm_num)
      (delaySeq_nonneg 1 60 2 (by norm_num) (by norm_num) (by norm_num) i)⟩)).1 0

/-- A record built by `add_property` carries the configuration's search
value as its owning search term. -/
theorem addProperty_search_term (d : List (String × PyVal)) (cfg : SearchCfg)
    (r : PropertyObj) (h : addProperty d cfg = some r) :
    r.search_term = cfg.search_value := by
  cases hany : (buildAttribution d).fields.any
      (fun p => p.1 = "attribution_extra") with
  | true =>
    simp only [addProperty, hany, if_true] at h
    exact Option.noConfusion h
  | false =>
    simp only [addProperty, hany, Bool.false_eq_true, if_false] at h
    cases h
    rfl

/-- Every record produced by normalizing a fetched batch carries the
configuration's search value. -/
theorem filterMap_addProperty_term (props : List (List (String × PyVal)))
    (cfg : SearchCfg) :
    ∀ r ∈ props.filterMap (fun d => addProperty d cfg),
      r.search_term = cfg.search_value := by
  intro r hr
  obtain ⟨d, _, hsome⟩ := List.mem_filterMap.mp hr
  exact addProperty_search_term d cfg r hsome

/-- When every record of the batch normalizes, the insert loop appends
exactly the normalized records to the session and counts them all. -/
theorem addLoop_ok (cfg : SearchCfg) :
    ∀ (props : List (List (String × PyVal))),
      (∀ d ∈ props, (addProperty d cfg).isSome) →
      ∀ (st : DBState) (n : Nat),
      addLoop cfg st props n =
        some (n + props.length,
          { st with pending :=
              st.pending ++ props.filterMap (fun d => addProperty d cfg) }) := by
  intro props
  induction props with
  | nil =>
    intro _ st n
    simp [addLoop]
  | cons d rest ih =>
    intro h st n
    obtain ⟨r, hr⟩ := Option.isSome_iff_exists.mp (h d (by simp))
    have step : addLoop cfg st (d :: rest) n =
        addLoop cfg (sessionAdd st r) rest (n + 1) := by
      simp [addLoop, hr]
    rw [step, ih (fun d2 hd2 => h d2 (by simp [hd2])) (sessionAdd st r) (n + 1)]
    simp [sessionAdd, hr, List.filterMap_cons]
    omega

/-- Filtering for the search term after filtering it away gives
nothing. -/
theorem filter_term_of_not (l : List PropertyObj) (t : String) :
    (l.filter (fun r => ¬ r.search_term = t)).filter
      (fun r => r.search_term = t) = [] := by
  apply List.filter_eq_nil_iff.mpr
  intro a ha
  have h2 := (List.mem_filter.mp ha).2
  simp at h2 ⊢
  exact h2

/-- Filtering away the search term is idempotent. -/
theorem filter_not_term_self (l : List PropertyObj) (t : String) :
    (l.filter (fun r => ¬ r.search_term = t)).filter
      (fun r => ¬ r.search_term = t) =
      l.filter (fun r => ¬ r.search_term = t) :=
  List.filter_eq_self.mpr (fun _ ha => (List.mem_filter.mp ha).2)

/-- If a list has no record of term `t`, filtering that term away
leaves it unchanged. -/
theorem filter_not_term_of_none (l : List PropertyObj) (t : String)
    (h : l.filter (fun r => r.search_term = t) = []) :
    l.filter (fun r => ¬ r.search_term = t) = l := by
  apply List.filter_eq_self.mpr
  intro a ha
  have h2 := List.filter_eq_nil_iff.mp h a ha
  simpa using h2

/-- C1: replace semantics of `save_search_to_database` for a non-empty
fetched batch, starting from a clean session.  On the successful path
the committed store holds, for the configuration's search term,
exactly the newly normalized records — every old record for that term
is gone — while records of other terms are untouched.  If the insert
phase raises an `SQLAlchemyError`, the session is rolled back, zero is
reported as saved, and the term is left with zero records (the delete
was already committed), never a mix of old and new; other terms are
again untouched. -/
theorem c1_replace_atomicity (st : DBState)
    (props : List (List (String × PyVal))) (cfg : SearchCfg)
    (hclean : st.pending = st.committed)
    (hne : props ≠ [])
    (hok : ∀ d ∈ props, (addProperty d cfg).isSome) :
    (∃ st1, saveSearchToDatabase props cfg st false = some (props.length, st1) ∧
       st1.committed.filter (fun r => r.search_term = cfg.search_value) =
         props.filterMap (fun d => addProperty d cfg) ∧
       st1.committed.filter (fun r => ¬ r.search_term = cfg.search_value) =
         st.committed.filter (fun r => ¬ r.search_term = cfg.search_value) ∧
       st1.pending = st1.committed) ∧
    (∃ st2, saveSearchToDatabase props cfg st true = some (0, st2) ∧
       st2.committed.filter (fun r => r.search_term = cfg.search_value) = [] ∧
       st2.committed.filter (fun r => ¬ r.search_term = cfg.search_value) =
         st.committed.filter (fun r => ¬ r.search_term = cfg.search_value) ∧
       st2.pending = st2.committed) := by
  obtain ⟨C, P⟩ := st
  have hPC : C = P := hclean.symm
  subst hPC
  have hpe : props.isEmpty = false := by
    cases props with
    | nil => exact absurd rfl hne
    | cons a l => rfl
  have hterm := filterMap_addProperty_term props cfg
  have hnewT : (props.filterMap (fun d => addProperty d cfg)).filter
      (fun r => r.search_term = cfg.search_value) =
      props.filterMap (fun d => addProperty d cfg) :=
    List.filter_eq_self.mpr (fun a ha => by simp [hterm a ha])
  have hnewN : (props.filterMap (fun d => addProperty d cfg)).filter
      (fun r => ¬ r.search_term = cfg.search_value) = [] :=
    List.filter_eq_nil_iff.mpr (fun a ha => by simp [hterm a ha])
  by_cases hex : (C.filter (fun r => r.search_term = cfg.search_value)).isEmpty = true
  · have hexnil : C.filter (fun r => r.search_term = cfg.search_value) = [] :=
      List.isEmpty_iff.mp hex
    constructor
    · refine ⟨commitDB
        ({ committed := C,
           pending := C ++ props.filterMap (fun d => addProperty d cfg) }),
        ?_, ?_, ?_, rfl⟩
      · simp only [saveSearchToDatabase, getPropertiesBySearchTerm, hpe,
          Bool.false_eq_true, if_false, hex, if_true]
        rw [addLoop_ok cfg props hok ⟨C, C⟩ 0]
        simp
      · simp only [commitDB, List.filter_append, hexnil, hnewT,
          List.nil_append]
      · simp only [commitDB, List.filter_append, hnewN, List.append_nil]
    · refine ⟨⟨C, C⟩, ?_, ?_, rfl, rfl⟩
      · simp only [saveSearchToDatabase, getPropertiesBySearchTerm, hpe,
          Bool.false_eq_true, if_false, hex, if_true, rollbackDB]
      · exact hexnil
  · have hexf : (C.filter (fun r => r.search_term = cfg.search_value)).isEmpty = false := by
      simpa using hex
    constructor
    · refine ⟨commitDB
        ({ committed := C.filter (fun r => ¬ r.search_term = cfg.search_value),
           pending := C.filter (fun r => ¬ r.search_term = cfg.search_value) ++
             props.filterMap (fun d => addProperty d cfg) }),
        ?_, ?_, ?_, rfl⟩
      · simp only [saveSearchToDatabase, getPropertiesBySearchTerm,
          deletePropertiesBySearchTerm, commitDB, hpe,
          Bool.false_eq_true, if_false, hexf]
        rw [addLoop_ok cfg props hok]
        simp
      · simp only [commitDB, List.filter_append, filter_term_of_not, hnewT,
          List.nil_append]
      · simp only [commitDB, List.filter_append, filter_not_term_self, hnewN,
          List.append_nil]
    · refine ⟨⟨C.filter (fun r => ¬ r.search_term = cfg.search_value),
        C.filter (fun r => ¬ r.search_term = cfg.search_value)⟩, ?_, ?_, ?_, rfl⟩
      · simp only [saveSearchToDatabase, getPropertiesBySearchTerm,
          deletePropertiesBySearchTerm, commitDB, rollbackDB, hpe,
          Bool.false_eq_true, if_false, hexf, if_true]
      · exact filter_term_of_not C cfg.search_value
      · exact filter_not_term_self C cfg.search_value

/-- The search configuration used by the concrete witnesses. -/
def cfgAustin : SearchCfg :=
  { search_value := "austin"
    ne_lat := some 1
    ne_long := some 2
    sw_lat := some 3
    sw_long := some 4
    pagination := 1
    description := Option.none }

/-- A pre-existing record for the witness search term. -/
def oldRecord : PropertyObj :=
  { search_term := "austin"
    address := PyVal.str "1 Old St"
    price := PyVal.str "100"
    sold_by := PyVal.str "agent"
    url := PyVal.str "u"
    ne_lat := Option.none
    ne_long := Option.none
    sw_lat := Option.none
    sw_long := Option.none
    attributionFields := []
    attribution_extra := Option.none }

/-- A store already holding one committed record for the witness term,
with a clean session. -/
def stAustin : DBState := { committed := [oldRecord], pending := [oldRecord] }

/-- A freshly fetched one-record batch for the witness term. -/
def propsNew : List (List (String × PyVal)) :=
  [[("Address", PyVal.str "2 New St"), ("Attribution_agentName", PyVal.str "Jane")]]

/-- Witness for C1: a concrete one-record refetch of a term with one
old record — on success exactly the new record remains for the term,
on an injected insert failure the term is left with zero records. -/
theorem c1_replace_atomicity_witness :
    (∃ st1, saveSearchToDatabase propsNew cfgAustin stAustin false =
        some (propsNew.length, st1) ∧
      st1.committed.filter (fun r => r.search_term = cfgAustin.search_value) =
        propsNew.filterMap (fun d => addProperty d cfgAustin) ∧
      st1.committed.filter (fun r => ¬ r.search_term = cfgAustin.search_value) =
        stAustin.committed.filter (fun r => ¬ r.search_term = cfgAustin.search_value) ∧
      st1.pending = st1.committed) ∧
    (∃ st2, saveSearchToDatabase propsNew cfgAustin stAustin true = some (0, st2) ∧
      st2.committed.filter (fun r => r.search_term = cfgAustin.search_value) = [] ∧
      st2.committed.filter (fun r => ¬ r.search_term = cfgAustin.search_value) =
        stAustin.committed.filter (fun r => ¬ r.search_term = cfgAustin.search_value) ∧
      st2.pending = st2.committed) :=
  c1_replace_atomicity stAustin propsNew cfgAustin rfl
    (by simp [propsNew])
    (by
      intro d hd
      have hd2 : d = [("Address", PyVal.str "2 New St"),
          ("Attribution_agentName", PyVal.str "Jane")] := by
        simpa [propsNew] using hd
      rw [hd2]
      rfl)

/-- Whether an incoming key routes to a fixed attribution column: it
carries the `Attribution_` prefix and the derived column name is an
attribute of the `Property` model. -/
def routesToField (key : String) : Bool :=
  startsWithStr "Attribution_" key &&
    attributionAttrs.contains (dbFieldName (stripAttributionTag key))

/-- Whether an incoming key routes to the `extra_attribution` map. -/
def routesToExtra (key : String) : Bool :=
  startsWithStr "Attribution_" key &&
    !(attributionAttrs.contains (dbFieldName (stripAttributionTag key)))

/-- The fixed-column name an `Attribution_` key is mapped to. -/
def fieldTarget (key : String) : String :=
  dbFieldName (stripAttributionTag key)

/-- The key under which an unrecognized `Attribution_` key lands in the
extra map (the prefix-stripped field name). -/
def extraTarget (key : String) : String :=
  stripAttributionTag key

/-- Assignment followed by lookup of the same key. -/
theorem dictGet_set_self {α : Type} :
    ∀ (d : List (String × α)) (k : String) (v : α),
      dictGet (dictSet d k v) k = some v := by
  intro d k v
  induction d with
  | nil => simp [dictSet, dictGet]
  | cons p rest ih =>
    by_cases hp : p.1 = k
    · simp [dictSet, hp, dictGet]
    · simp only [dictSet, hp, if_neg, ite_false]
      simpa [dictGet, List.find?, hp] using ih

/-- Assignment leaves lookups of other keys unchanged. -/
theorem dictGet_set_ne {α : Type} :
    ∀ (d : List (String × α)) (k k2 : String) (v : α), k2 ≠ k →
      dictGet (dictSet d k v) k2 = dictGet d k2 := by
  intro d k k2 v hne
  induction d with
  | nil => simp [dictSet, dictGet, List.find?, Ne.symm hne]
  | cons p rest ih =>
    by_cases hp : p.1 = k
    · subst hp
      simp [dictSet, dictGet, List.find?, Ne.symm hne]
    · simp only [dictSet, hp, ite_false]
      by_cases hp2 : p.1 = k2
      · simp [dictGet, List.find?, hp2]
      · simpa [dictGet, List.find?, hp2] using ih

/-- Appending a pair whose key differs from the looked-up key does not
change the lookup. -/
theorem dictGet_append_single {α : Type} :
    ∀ (d : List (String × α)) (k a : String) (v : α), k ≠ a →
      dictGet (d ++ [(k, v)]) a = dictGet d a := by
  intro d k a v hne
  induction d with
  | nil => simp [dictGet, List.find?, hne]
  | cons p rest ih =>
    by_cases hp : p.1 = a
    · simp [dictGet, List.find?, hp]
    · simpa [dictGet, List.find?, hp] using ih

/-- The effect of one normalization step on the fields dict. -/
theorem attrStep_fields (acc : AttrAcc) (kv : String × PyVal) :
    (attrStep acc kv).fields =
      if routesToField kv.1 then
        dictSet acc.fields (fieldTarget kv.1) (serializeAttr kv.2)
      else acc.fields := by
  cases h1 : startsWithStr "Attribution_" kv.1 with
  | false => simp [attrStep, routesToField, h1]
  | true =>
    cases h2 : attributionAttrs.contains (dbFieldName (stripAttributionTag kv.1)) with
    | false =>
      have hmem : dbFieldName (stripAttributionTag kv.1) ∉ attributionAttrs := by
        simpa using h2
      simp [attrStep, routesToField, fieldTarget, h1, h2, hmem]
    | true =>
      have hmem : dbFieldName (stripAttributionTag kv.1) ∈ attributionAttrs := by
        simpa using h2
      simp [attrStep, routesToField, fieldTarget, h1, h2, hmem]

/-- The effect of one normalization step on the extra map. -/
theorem attrStep_extra (acc : AttrAcc) (kv : String × PyVal) :
    (attrStep acc kv).extra =
      if routesToExtra kv.1 then
        dictSet acc.extra (extraTarget kv.1) kv.2
      else acc.extra := by
  cases h1 : startsWithStr "Attribution_" kv.1 with
  | false => simp [attrStep, routesToExtra, h1]
  | true =>
    cases h2 : attributionAttrs.contains (dbFieldName (stripAttributionTag kv.1)) with
    | false =>
      have hmem : dbFieldName (stripAttributionTag kv.1) ∉ attributionAttrs := by
        simpa using h2
      simp [attrStep, routesToExtra, extraTarget, h1, h2, hmem]
    | true =>
      have hmem : dbFieldName (stripAttributionTag kv.1) ∈ attributionAttrs := by
        simpa using h2
      simp [attrStep, routesToExtra, extraTarget, h1, h2, hmem]

/-- If no pair of the remaining input writes the column `dName`, the
normalization fold leaves its value untouched. -/
theorem fold_fields_of_no_writer :
    ∀ (l : List (String × PyVal)) (acc : AttrAcc) (dName : String),
      (∀ kv ∈ l, routesToField kv.1 = true → fieldTarget kv.1 ≠ dName) →
      dictGet (l.foldl attrStep acc).fields dName = dictGet acc.fields dName := by
  intro l
  induction l with
  | nil => intro acc dName _; rfl
  | cons kv rest ih =>
    intro acc dName h
    show dictGet ((rest.foldl attrStep (attrStep acc kv))).fields dName = _
    rw [ih (attrStep acc kv) dName (fun kv2 h2 => h kv2 (by simp [h2]))]
    rw [attrStep_fields]
    by_cases hr : routesToField kv.1 = true
    · rw [if_pos hr]
      exact dictGet_set_ne acc.fields (fieldTarget kv.1) dName _
        (Ne.symm (h kv (by simp) hr))
    · rw [if_neg hr]

/-- If no pair of the remaining input writes the extra key `eName`, the
normalization fold leaves its value untouched. -/
theorem fold_extra_of_no_writer :
    ∀ (l : List (String × PyVal)) (acc : AttrAcc) (eName : String),
      (∀ kv ∈ l, routesToExtra kv.1 = true → extraTarget kv.1 ≠ eName) →
      dictGet (l.foldl attrStep acc).extra eName = dictGet acc.extra eName := by
  intro l
  induction l with
  | nil => intro acc eName _; rfl
  | cons kv rest ih =>
    intro acc eName h
    show dictGet ((rest.foldl attrStep (attrStep acc kv))).extra eName = _
    rw [ih (attrStep acc kv) eName (fun kv2 h2 => h kv2 (by simp [h2]))]
    rw [attrStep_extra]
    by_cases hr : routesToExtra kv.1 = true
    · rw [if_pos hr]
      exact dictGet_set_ne acc.extra (extraTarget kv.1) eName _
        (Ne.symm (h kv (by simp) hr))
    · rw [if_neg hr]

/-- If `(k, v)` occurs in the input, keys are unique, `k` routes to a
fixed column, and no other field-routed key shares its column, the
fold ends with that column holding `k`'s serialized value. -/
theorem fold_fields_last_writer :
    ∀ (l : List (String × PyVal)) (acc : AttrAcc) (k : String) (v : PyVal),
      (k, v) ∈ l → (l.map Prod.fst).Nodup → routesToField k = true →
      (∀ k2 ∈ l.map Prod.fst, k2 ≠ k → routesToField k2 = true →
        fieldTarget k2 ≠ fieldTarget k) →
      dictGet (l.foldl attrStep acc).fields (fieldTarget k) =
        some (serializeAttr v) := by
  intro l
  induction l with
  | nil => intro acc k v hmem; exact absurd hmem (List.not_mem_nil _)
  | cons kv rest ih =>
    intro acc k v hmem hnd hroute hdis
    have hndc : (kv.1 :: rest.map Prod.fst).Nodup := by
      simpa only [List.map_cons] using hnd
    have hnd2 := List.nodup_cons.mp hndc
    rcases List.mem_cons.mp hmem with heq | hmemr
    · subst heq
      show dictGet ((rest.foldl attrStep (attrStep acc (k, v))).fields) _ = _
      rw [fold_fields_of_no_writer rest (attrStep acc (k, v)) (fieldTarget k)
        (fun kv2 h2 hr2 => by
          have hk2 : kv2.1 ≠ k := by
            intro hkk
            have hmm : kv2.1 ∈ rest.map Prod.fst :=
              List.mem_map_of_mem Prod.fst h2
            rw [hkk] at hmm
            exact hnd2.1 hmm
          exact hdis kv2.1 (by simp [List.mem_map_of_mem Prod.fst h2])
            hk2 hr2)]
      rw [attrStep_fields, if_pos hroute]
      exact dictGet_set_self acc.fields (fieldTarget k) (serializeAttr v)
    · show dictGet ((rest.foldl attrStep (attrStep acc kv)).fields) _ = _
      exact ih (attrStep acc kv) k v hmemr hnd2.2 hroute
        (fun k2 hk2 hne hr2 => hdis k2 (by simp [hk2]) hne hr2)

/-- The extra-map analogue of `fold_fields_last_writer`. -/
theorem fold_extra_last_writer :
    ∀ (l : List (String × PyVal)) (acc : AttrAcc) (k : String) (v : PyVal),
      (k, v) ∈ l → (l.map Prod.fst).Nodup → routesToExtra k = true →
      (∀ k2 ∈ l.map Prod.fst, k2 ≠ k → routesToExtra k2 = true →
        extraTarget k2 ≠ extraTarget k) →
      dictGet (l.foldl attrStep acc).extra (extraTarget k) = some v := by
  intro l
  induction l with
  | nil => intro acc k v hmem; exact absurd hmem (List.not_mem_nil _)
  | cons kv rest ih =>
    intro acc k v hmem hnd hroute hdis
    have hndc : (kv.1 :: rest.map Prod.fst).Nodup := by
      simpa only [List.map_cons] using hnd
    have hnd2 := List.nodup_cons.mp hndc
    rcases List.mem_cons.mp hmem with heq | hmemr
    · subst heq
      show dictGet ((rest.foldl attrStep (attrStep acc (k, v))).extra) _ = _
      rw [fold_extra_of_no_writer rest (attrStep acc (k, v)) (extraTarget k)
        (fun kv2 h2 hr2 => by
          have hk2 : kv2.1 ≠ k := by
            intro hkk
            have hmm : kv2.1 ∈ rest.map Prod.fst :=
              List.mem_map_of_mem Prod.fst h2
            rw [hkk] at hmm
            exact hnd2.1 hmm
          exact hdis kv2.1 (by simp [List.mem_map_of_mem Prod.fst h2])
            hk2 hr2)]
      rw [attrStep_extra, if_pos hroute]
      exact dictGet_set_self acc.extra (extraTarget k) v
    · show dictGet ((rest.foldl attrStep (attrStep acc kv)).extra) _ = _
      exact ih (attrStep acc kv) k v hmemr hnd2.2 hroute
        (fun k2 hk2 hne hr2 => hdis k2 (by simp [hk2]) hne hr2)

/-- A dict with no entry for `k` reports `false` for the corresponding
`any` scan. -/
theorem any_key_false_of_dictGet_none {α : Type} :
    ∀ (d : List (String × α)) (k : String), dictGet d k = Option.none →
      d.any (fun p => p.1 = k) = false := by
  intro d k h
  induction d with
  | nil => rfl
  | cons p rest ih =>
    by_cases hp : p.1 = k
    · exfalso
      simp [dictGet, List.find?, hp] at h
    · simp only [List.any_cons, hp, decide_eq_true_eq, Bool.false_or,
        decide_eq_false hp]
      apply ih
      simpa [dictGet, List.find?, hp] using h

/-- C5 counterexample: two distinct keys of one detail record —
`Attribution_agentName` and `Attribution_AgentName` — both derive the
fixed column `attribution_agent_name`; the later one overwrites the
earlier, so the first key's value `A` is stored in no fixed column and
in no extra entry (the extra map stays empty), contradicting the
claim's promise that every `Attribution_`-prefixed field's value is
stored. -/
theorem c5_counterexample :
    startsWithStr "Attribution_" "Attribution_agentName" = true ∧
    routesToField "Attribution_agentName" = true ∧
    fieldTarget "Attribution_agentName" = "attribution_agent_name" ∧
    fieldTarget "Attribution_AgentName" = "attribution_agent_name" ∧
    dictGet (buildAttribution
      [("Attribution_agentName", PyVal.str "A"),
       ("Attribution_AgentName", PyVal.str "B")]).fields
      "attribution_agent_name" = some (some "B") ∧
    some (some "B") ≠ some (serializeAttr (PyVal.str "A")) ∧
    (buildAttribution
      [("Attribution_agentName", PyVal.str "A"),
       ("Attribution_AgentName", PyVal.str "B")]).extra = [] := by
  refine ⟨rfl, rfl, rfl, rfl, rfl, ?_, rfl⟩
  intro h
  have h2 : some "B" = serializeAttr (PyVal.str "A") := Option.some.inj h
  exact Option.noConfusion h2 (fun h3 => String.noConfusion h3 (by decide))

/-- C5 amended: for a detail record with unique keys in which no two
distinct keys derive the same storage target and no key derives the
reserved column name `attribution_extra` (a key doing so makes the
source raise a duplicate-keyword `TypeError`; two keys deriving the
same target make the later one overwrite the earlier), `add_property`
succeeds and routes every `Attribution_`-prefixed key as the claim
describes: a key whose derived name is a `Property` attribution column
has its value stored in that fixed column (lists/dicts serialized to
JSON text), and every other `Attribution_`-prefixed key's pair is
accumulated in the record's extra-attribution map — none is dropped,
and a known key such as `Attribution_agentName` lands in its fixed
column, not in the extra map. -/
theorem c5_attribution_routing (data : List (String × PyVal)) (cfg : SearchCfg)
    (hnd : (data.map Prod.fst).Nodup)
    (hfld : ∀ k1 ∈ data.map Prod.fst, ∀ k2 ∈ data.map Prod.fst, k1 ≠ k2 →
       routesToField k1 = true → routesToField k2 = true →
       fieldTarget k1 ≠ fieldTarget k2)
    (hxtr : ∀ k1 ∈ data.map Prod.fst, ∀ k2 ∈ data.map Prod.fst, k1 ≠ k2 →
       routesToExtra k1 = true → routesToExtra k2 = true →
       extraTarget k1 ≠ extraTarget k2)
    (hnoex : ∀ k1 ∈ data.map Prod.fst, routesToField k1 = true →
       fieldTarget k1 ≠ "attribution_extra") :
    ∃ p, addProperty data cfg = some p ∧
      p.attributionFields = (buildAttribution data).fields ∧
      ∀ k v, (k, v) ∈ data → startsWithStr "Attribution_" k = true →
        (routesToField k = true →
          dictGet p.attributionFields (fieldTarget k) =
            some (serializeAttr v)) ∧
        (routesToField k = false →
          dictGet ((p.attribution_extra).getD []) (extraTarget k) = some v) := by
  have hnone : dictGet (buildAttribution data).fields "attribution_extra" =
      Option.none := by
    show dictGet (data.foldl attrStep ⟨[], []⟩).fields _ = _
    rw [fold_fields_of_no_writer data ⟨[], []⟩ "attribution_extra"
      (fun kv h2 hr2 => hnoex kv.1 (List.mem_map_of_mem Prod.fst h2) hr2)]
    rfl
  have hany : (buildAttribution data).fields.any
      (fun p => p.1 = "attribution_extra") = false :=
    any_key_false_of_dictGet_none (buildAttribution data).fields
      "attribution_extra" hnone
  refine ⟨{ search_term := cfg.search_value
            address := (dictGet data "Address").getD (PyVal.str "")
            price := (dictGet data "Price").getD (PyVal.str "")
            sold_by := (dictGet data "Sold_By").getD (PyVal.str "")
            url := (dictGet data "Url").getD (PyVal.str "")
            ne_lat := cfg.ne_lat
            ne_long := cfg.ne_long
            sw_lat := cfg.sw_lat
            sw_long := cfg.sw_long
            attributionFields := (buildAttribution data).fields
            attribution_extra :=
              if (buildAttribution data).extra.isEmpty then Option.none
              else some (buildAttribution data).extra }, ?_, rfl, ?_⟩
  · simp only [addProperty, hany, Bool.false_eq_true, if_false]
  · intro k v hmem hsw
    constructor
    · intro hrf
      show dictGet (buildAttribution data).fields (fieldTarget k) = _
      show dictGet (data.foldl attrStep ⟨[], []⟩).fields (fieldTarget k) = _
      exact fold_fields_last_writer data ⟨[], []⟩ k v hmem hnd hrf
        (fun k2 hk2 hne hr2 =>
          hfld k2 hk2 k (List.mem_map_of_mem Prod.fst hmem) hne hr2 hrf)
    · intro hrf
      have hre : routesToExtra k = true := by
        simp only [routesToField, hsw, Bool.true_and] at hrf
        simp only [routesToExtra, hsw, Bool.true_and, hrf]
        rfl
      have hget : dictGet (buildAttribution data).extra (extraTarget k) =
          some v := by
        show dictGet (data.foldl attrStep ⟨[], []⟩).extra (extraTarget k) = _
        exact fold_extra_last_writer data ⟨[], []⟩ k v hmem hnd hre
          (fun k2 hk2 hne hr2 =>
            hxtr k2 hk2 k (List.mem_map_of_mem Prod.fst hmem) hne hr2 hre)
      show dictGet ((if (buildAttribution data).extra.isEmpty then Option.none
        else some (buildAttribution data).extra).getD []) (extraTarget k) =
        some v
      cases hie : (buildAttribution data).extra.isEmpty with
      | true =>
        exfalso
        have hxe : (buildAttribution data).extra = [] := List.isEmpty_iff.mp hie
        rw [hxe] at hget
        exact Option.noConfusion hget
      | false =>
        simpa using hget

/-- Witness for C5: a record with one known attribution key, one
unknown attribution key and one basic key routes as described; the
hypotheses hold by computation. -/
theorem c5_attribution_routing_witness :
    ∃ p, addProperty
        [("Attribution_agentName", PyVal.str "Jane"),
         ("Attribution_weirdXYZField", PyVal.str "w"),
         ("Address", PyVal.str "1 Main St")] cfgAustin = some p ∧
      p.attributionFields = (buildAttribution
        [("Attribution_agentName", PyVal.str "Jane"),
         ("Attribution_weirdXYZField", PyVal.str "w"),
         ("Address", PyVal.str "1 Main St")]).fields ∧
      ∀ k v, (k, v) ∈ [("Attribution_agentName", PyVal.str "Jane"),
         ("Attribution_weirdXYZField", PyVal.str "w"),
         ("Address", PyVal.str "1 Main St")] →
        startsWithStr "Attribution_" k = true →
        (routesToField k = true →
          dictGet p.attributionFields (fieldTarget k) =
            some (serializeAttr v)) ∧
        (routesToField k = false →
          dictGet ((p.attribution_extra).getD []) (extraTarget k) = some v) :=
  c5_attribution_routing
    [("Attribution_agentName", PyVal.str "Jane"),
     ("Attribution_weirdXYZField", PyVal.str "w"),
     ("Address", PyVal.str "1 Main St")] cfgAustin
    (by decide) (by decide) (by decide) (by decide)

/-- Appending a key without the `Attribution_` prefix leaves the
normalization accumulator unchanged. -/
theorem buildAttribution_append_skip (data : List (String × PyVal))
    (k : String) (v : PyVal)
    (hpre : startsWithStr "Attribution_" k = false) :
    buildAttribution (data ++ [(k, v)]) = buildAttribution data := by
  show (data ++ [(k, v)]).foldl attrStep ⟨[], []⟩ = data.foldl attrStep ⟨[], []⟩
  rw [List.foldl_append]
  show attrStep (data.foldl attrStep ⟨[], []⟩) (k, v) = _
  simp [attrStep, hpre]

/-- C10: a key of the incoming property data that neither carries the
`Attribution_` prefix nor is one of the four fixed basics (`Address`,
`Price`, `Sold_By`, `Url`) contributes nothing to the stored record:
adding such a pair to the data leaves `add_property`'s result
completely unchanged — the value is written neither to a fixed column
nor to the extra map, it is silently discarded. -/
theorem c10_non_attribution_discarded (data : List (String × PyVal))
    (cfg : SearchCfg) (k : String) (v : PyVal)
    (hpre : startsWithStr "Attribution_" k = false)
    (hbasic : k ∉ ["Address", "Price", "Sold_By", "Url"]) :
    addProperty (data ++ [(k, v)]) cfg = addProperty data cfg := by
  have hA : k ≠ "Address" := fun h => hbasic (by simp [h])
  have hP : k ≠ "Price" := fun h => hbasic (by simp [h])
  have hS : k ≠ "Sold_By" := fun h => hbasic (by simp [h])
  have hU : k ≠ "Url" := fun h => hbasic (by simp [h])
  simp only [addProperty, buildAttribution_append_skip data k v hpre,
    dictGet_append_single data k "Address" v hA,
    dictGet_append_single data k "Price" v hP,
    dictGet_append_single data k "Sold_By" v hS,
    dictGet_append_single data k "Url" v hU]

/-- Witness for C10: appending the pair `("ListingKey", "zzz")` to a
one-basic-key record changes nothing about the stored row. -/
theorem c10_non_attribution_discarded_witness :
    addProperty ([("Address", PyVal.str "1 Main St")] ++
      [("ListingKey", PyVal.str "zzz")]) cfgAustin =
      addProperty [("Address", PyVal.str "1 Main St")] cfgAustin :=
  c10_non_attribution_discarded [("Address", PyVal.str "1 Main St")]
    cfgAustin "ListingKey" (PyVal.str "zzz") (by decide) (by decide)

/-- Witness for C9: the concrete witness store survives an empty save
untouched, even with a failure injected. -/
theorem c9_empty_fetch_frame_witness :
    saveSearchToDatabase [] cfgAustin stAustin true = some (0, stAustin) :=
  c9_empty_fetch_frame cfgAustin stAustin true

/-- Witness for C6: a concrete no-configs run ends with the log still
`running`, all counters zero and no end time. -/
theorem c6_no_configs_left_running_witness :
    (mainRunNoConfigs 0 "log.txt").status = LogStatus.running ∧
    (mainRunNoConfigs 0 "log.txt").end_time = Option.none ∧
    (mainRunNoConfigs 0 "log.txt").total_searches = 0 ∧
    (mainRunNoConfigs 0 "log.txt").successful_searches = 0 ∧
    (mainRunNoConfigs 0 "log.txt").total_properties = 0 ∧
    (mainRunNoConfigs 0 "log.txt").properties_saved = 0 ∧
    (mainRunNoConfigs 0 "log.txt").status ≠ LogStatus.completed ∧
    (mainRunNoConfigs 0 "log.txt").status ≠ LogStatus.failed ∧
    (mainRunNoConfigs 0 "log.txt").log_file_path = some "log.txt" :=
  c6_no_configs_left_running 0 "log.txt"

/-- Witness for C7: a far-out-of-range interval update is accepted and
persisted as given. -/
theorem c7_update_no_validation_witness :
    (schedulerUpdateConfig defaultScraperCfg
        [("schedule_interval_minutes", 2000)] 7).1 = true ∧
    (schedulerUpdateConfig defaultScraperCfg
        [("schedule_interval_minutes", 2000)] 7).2.schedule_interval_minutes =
      lastOr [("schedule_interval_minutes", 2000)] "schedule_interval_minutes"
        defaultScraperCfg.schedule_interval_minutes ∧
    (schedulerUpdateConfig defaultScraperCfg
        [("schedule_interval_minutes", 2000)] 7).2.timeout_minutes =
      lastOr [("schedule_interval_minutes", 2000)] "timeout_minutes"
        defaultScraperCfg.timeout_minutes ∧
    (schedulerUpdateConfig defaultScraperCfg
        [("schedule_interval_minutes", 2000)] 7).2.updated_at = 7 :=
  c7_update_no_validation defaultScraperCfg
    [("schedule_interval_minutes", 2000)] 7

end Zillow
